import Mathlib

/-!
Verification of the bing search-engine adapter (src/engine/bing.rs).

The module has three functions:
  * `fetch`         : builds the search URL and performs the HTTP GET,
  * `extract_links` : parses the returned page and collects result links,
  * `search_links`  : orchestrates the two and maps "no links" to an error.

The document model below mirrors the select crate's parsed document: a tree
of element and text nodes, where elements carry a tag name and an attribute
list.  The fixed selector used by the source,
`Class("b_algo").descendant(Name("h2")).descendant(Name("a"))`, is embedded
by unfolding the select crate's `Descendant` predicate (a node matches
`A.descendant(B)` when `B` matches the node and some proper ancestor
matches `A`) at this concrete selector.  `doc.find` enumerates nodes in
document (preorder) order.
-/

inductive Node where
  | element (tag : String) (attrs : List (String × String)) (children : List Node)
  | text (s : String)

/-- First-match attribute lookup, as html5ever keeps the first occurrence of
a duplicated attribute. -/
def attrLookup : List (String × String) → String → Option String
  | [], _ => none
  | (k, v) :: rest, key => if k = key then some v else attrLookup rest key

/-- `node.attr(key)` of the select crate: `None` on text nodes. -/
def Node.attr : Node → String → Option String
  | .element _ attrs _, key => attrLookup attrs key
  | .text _, _ => none

/-- Split on whitespace runs, dropping empty words (Rust `split_whitespace`,
used by the select crate's `Class` predicate). -/
def splitWsAux : List Char → List Char → List String
  | [], acc => if acc.isEmpty then [] else [acc.reverse.asString]
  | c :: cs, acc =>
      if c.isWhitespace then
        if acc.isEmpty then splitWsAux cs []
        else acc.reverse.asString :: splitWsAux cs []
      else splitWsAux cs (c :: acc)

def splitWhitespace (s : String) : List String := splitWsAux s.toList []

/-- The select crate's `Class(c)` predicate: the `class` attribute exists and
word-contains `c`. -/
def hasClass (n : Node) (c : String) : Bool :=
  match n.attr "class" with
  | some v => (splitWhitespace v).contains c
  | none => false

/-- The select crate's `Name(t)` predicate. -/
def isName (t : String) : Node → Bool
  | .element tag _ _ => tag = t
  | .text _ => false

/-- Some (proper) ancestor in the chain (nearest first) has class `b_algo`:
the `Class("b_algo")` half of the outer `Descendant`. -/
def ancHasBAlgo : List Node → Bool
  | [] => false
  | m :: rest => hasClass m "b_algo" || ancHasBAlgo rest

/-- Some ancestor is an `h2` that itself has a `b_algo`-classed ancestor:
`Class("b_algo").descendant(Name("h2"))` holding at some ancestor. -/
def ancHasH2UnderBAlgo : List Node → Bool
  | [] => false
  | m :: rest => (isName "h2" m && ancHasBAlgo rest) || ancHasH2UnderBAlgo rest

/-- The source's selector
`Class("b_algo").descendant(Name("h2")).descendant(Name("a"))`, evaluated at
a node whose proper-ancestor chain (nearest first) is `anc`. -/
def selMatches (anc : List Node) (n : Node) : Bool :=
  isName "a" n && ancHasH2UnderBAlgo anc

mutual
/-- Nodes of the subtree rooted at `n` (whose proper-ancestor chain is
`anc`) matching the selector, in document (preorder) order: the select
crate's `doc.find` restricted to one subtree. -/
def findInNode (anc : List Node) : Node → List Node
  | .text s => if selMatches anc (.text s) then [.text s] else []
  | .element t a c =>
      (if selMatches anc (.element t a c) then [Node.element t a c] else [])
        ++ findInForest (Node.element t a c :: anc) c

def findInForest (anc : List Node) : List Node → List Node
  | [] => []
  | n :: ns => findInNode anc n ++ findInForest anc ns
end

/-- Body of `extract_links` after `Document::from` (bing.rs lines 65-78):
iterate the matched nodes, push each present `href`, return `None` when the
collected list is empty. -/
def extract_links_doc (doc : List Node) : Option (List String) :=
  let links := (findInForest [] doc).filterMap (fun n => n.attr "href")
  if links.length = 0 then none else some links

/-!
The HTML parser.  `Document::from` comes from the select crate (html5ever),
which is external to this repository; the spec describes it as parsing
"into a structural document tree tolerant of malformed markup (parsing
never fails outright; worst case yields an empty or degenerate tree)".
The total tokenizer and tree builder below model that behaviour: every
input string produces a document, unclosed or stray tags are tolerated,
tag and attribute names are lowercased as html5ever does.
-/

def isNameChar (c : Char) : Bool :=
  c.isAlphanum || c == '-' || c == '_' || c == ':'

def lowerStr (l : List Char) : String := (l.map Char.toLower).asString

/-- An element opened but not yet closed; `rev` holds its children so far,
reversed. -/
structure Frame where
  tag : String
  attrs : List (String × String)
  rev : List Node

def closeFrame (f : Frame) : Node := Node.element f.tag f.attrs f.rev.reverse

/-- Attach a finished node to the innermost open element, or to the root
list (kept reversed) when none is open. -/
def addChild (n : Node) : List Frame → List Node → List Frame × List Node
  | [], roots => ([], n :: roots)
  | f :: rest, roots => ({ f with rev := n :: f.rev } :: rest, roots)

def stackHas (t : String) : List Frame → Bool
  | [] => false
  | f :: rest => f.tag = t || stackHas t rest

/-- Close frames outward until the one just closed was named `t`; `child`
is the node produced by the innermost close, `matched` whether its tag was
`t`. -/
def popLoop (t : String) (child : Node) (matched : Bool) :
    List Frame → List Node → List Frame × List Node
  | [], roots => ([], child :: roots)
  | g :: rs, roots =>
      if matched then ({ g with rev := child :: g.rev } :: rs, roots)
      else popLoop t (Node.element g.tag g.attrs (child :: g.rev).reverse) (g.tag = t) rs roots

def popTo (t : String) : List Frame → List Node → List Frame × List Node
  | [], roots => ([], roots)
  | f :: rest, roots => popLoop t (closeFrame f) (f.tag = t) rest roots

def closeAllGo (child : Node) : List Frame → List Node → List Node
  | [], roots => (child :: roots).reverse
  | g :: rs, roots =>
      closeAllGo (Node.element g.tag g.attrs (child :: g.rev).reverse) rs roots

/-- End of input: close every still-open element. -/
def closeAll : List Frame → List Node → List Node
  | [], roots => roots.reverse
  | f :: rest, roots => closeAllGo (closeFrame f) rest roots

def isVoidTag (t : String) : Bool :=
  ["area", "base", "br", "col", "embed", "hr", "img", "input", "link",
    "meta", "param", "source", "track", "wbr"].contains t

/-- Tokenizer mode of the streaming parser.  Character accumulators (`acc`,
`nm`, `an`, `v`) are kept reversed; the attribute list `as` is kept
reversed as well and put in document order on emission. -/
inductive Mode where
  | mText (acc : List Char)
  | mSeenLt (acc : List Char)
  | mBang
  | mCloseName (nm : List Char)
  | mCloseSkip (nm : List Char)
  | mTagName (nm : List Char)
  | mAttrs (nm : List Char) (as : List (String × String))
  | mAttrName (nm : List Char) (as : List (String × String)) (an : List Char)
  | mAfterName (nm : List Char) (as : List (String × String)) (an : List Char)
  | mAttrEq (nm : List Char) (as : List (String × String)) (an : List Char)
  | mValQ (nm : List Char) (as : List (String × String)) (an : List Char) (v : List Char)
  | mValU (nm : List Char) (as : List (String × String)) (an : List Char) (v : List Char)
  | mSlash (nm : List Char) (as : List (String × String))

structure PState where
  mode : Mode
  stack : List Frame
  roots : List Node

/-- Flush accumulated character data as a text node (if any). -/
def flushText (acc : List Char) (stack : List Frame) (roots : List Node) :
    List Frame × List Node :=
  if acc.isEmpty then (stack, roots)
  else addChild (Node.text acc.reverse.asString) stack roots

def pushAttr (an v : List Char) (as : List (String × String)) :
    List (String × String) :=
  (lowerStr an.reverse, v.reverse.asString) :: as

/-- Emit a finished open tag: push a frame, or attach a childless element
for void and self-closed tags.  Tag and attribute names are lowercased as
html5ever does. -/
def emitOpen (nm : List Char) (as : List (String × String)) (sc : Bool)
    (stack : List Frame) (roots : List Node) : List Frame × List Node :=
  let t := lowerStr nm.reverse
  if sc || isVoidTag t then addChild (Node.element t as.reverse []) stack roots
  else ({ tag := t, attrs := as.reverse, rev := [] } :: stack, roots)

/-- Emit a close tag: close up to the matching open element, or ignore the
tag when nothing matches. -/
def emitClose (nm : List Char) (stack : List Frame) (roots : List Node) :
    List Frame × List Node :=
  let t := lowerStr nm.reverse
  if stackHas t stack then popTo t stack roots else (stack, roots)

/-- One character of the tolerant tokenizer / tree builder. -/
def pstep (c : Char) : PState → PState
  | ⟨Mode.mText acc, stack, roots⟩ =>
      if c == '<' then ⟨Mode.mSeenLt acc, stack, roots⟩
      else ⟨Mode.mText (c :: acc), stack, roots⟩
  | ⟨Mode.mSeenLt acc, stack, roots⟩ =>
      if c == '/' then
        match flushText acc stack roots with
        | (s2, r2) => ⟨Mode.mCloseName [], s2, r2⟩
      else if c == '!' || c == '?' then
        match flushText acc stack roots with
        | (s2, r2) => ⟨Mode.mBang, s2, r2⟩
      else if isNameChar c then
        match flushText acc stack roots with
        | (s2, r2) => ⟨Mode.mTagName [c], s2, r2⟩
      else if c == '<' then ⟨Mode.mSeenLt ('<' :: acc), stack, roots⟩
      else ⟨Mode.mText (c :: '<' :: acc), stack, roots⟩
  | ⟨Mode.mBang, stack, roots⟩ =>
      if c == '>' then ⟨Mode.mText [], stack, roots⟩
      else ⟨Mode.mBang, stack, roots⟩
  | ⟨Mode.mCloseName nm, stack, roots⟩ =>
      if isNameChar c then ⟨Mode.mCloseName (c :: nm), stack, roots⟩
      else if c == '>' then
        match emitClose nm stack roots with
        | (s2, r2) => ⟨Mode.mText [], s2, r2⟩
      else ⟨Mode.mCloseSkip nm, stack, roots⟩
  | ⟨Mode.mCloseSkip nm, stack, roots⟩ =>
      if c == '>' then
        match emitClose nm stack roots with
        | (s2, r2) => ⟨Mode.mText [], s2, r2⟩
      else ⟨Mode.mCloseSkip nm, stack, roots⟩
  | ⟨Mode.mTagName nm, stack, roots⟩ =>
      if isNameChar c then ⟨Mode.mTagName (c :: nm), stack, roots⟩
      else if c == '>' then
        match emitOpen nm [] false stack roots with
        | (s2, r2) => ⟨Mode.mText [], s2, r2⟩
      else if c == '/' then ⟨Mode.mSlash nm [], stack, roots⟩
      else ⟨Mode.mAttrs nm [], stack, roots⟩
  | ⟨Mode.mAttrs nm as, stack, roots⟩ =>
      if c == '>' then
        match emitOpen nm as false stack roots with
        | (s2, r2) => ⟨Mode.mText [], s2, r2⟩
      else if c == '/' then ⟨Mode.mSlash nm as, stack, roots⟩
      else if isNameChar c then ⟨Mode.mAttrName nm as [c], stack, roots⟩
      else ⟨Mode.mAttrs nm as, stack, roots⟩
  | ⟨Mode.mAttrName nm as an, stack, roots⟩ =>
      if isNameChar c then ⟨Mode.mAttrName nm as (c :: an), stack, roots⟩
      else if c == '=' then ⟨Mode.mAttrEq nm as an, stack, roots⟩
      else if c == '>' then
        match emitOpen nm (pushAttr an [] as) false stack roots with
        | (s2, r2) => ⟨Mode.mText [], s2, r2⟩
      else if c == '/' then ⟨Mode.mSlash nm (pushAttr an [] as), stack, roots⟩
      else ⟨Mode.mAfterName nm as an, stack, roots⟩
  | ⟨Mode.mAfterName nm as an, stack, roots⟩ =>
      if c == '=' then ⟨Mode.mAttrEq nm as an, stack, roots⟩
      else if c == '>' then
        match emitOpen nm (pushAttr an [] as) false stack roots with
        | (s2, r2) => ⟨Mode.mText [], s2, r2⟩
      else if c == '/' then ⟨Mode.mSlash nm (pushAttr an [] as), stack, roots⟩
      else if isNameChar c then ⟨Mode.mAttrName nm (pushAttr an [] as) [c], stack, roots⟩
      else ⟨Mode.mAfterName nm as an, stack, roots⟩
  | ⟨Mode.mAttrEq nm as an, stack, roots⟩ =>
      if c == '"' then ⟨Mode.mValQ nm as an [], stack, roots⟩
      else if c == '>' then
        match emitOpen nm (pushAttr an [] as) false stack roots with
        | (s2, r2) => ⟨Mode.mText [], s2, r2⟩
      else if c.isWhitespace then ⟨Mode.mAttrEq nm as an, stack, roots⟩
      else ⟨Mode.mValU nm as an [c], stack, roots⟩
  | ⟨Mode.mValQ nm as an v, stack, roots⟩ =>
      if c == '"' then ⟨Mode.mAttrs nm (pushAttr an v as), stack, roots⟩
      else ⟨Mode.mValQ nm as an (c :: v), stack, roots⟩
  | ⟨Mode.mValU nm as an v, stack, roots⟩ =>
      if c.isWhitespace then ⟨Mode.mAttrs nm (pushAttr an v as), stack, roots⟩
      else if c == '>' then
        match emitOpen nm (pushAttr an v as) false stack roots with
        | (s2, r2) => ⟨Mode.mText [], s2, r2⟩
      else ⟨Mode.mValU nm as an (c :: v), stack, roots⟩
  | ⟨Mode.mSlash nm as, stack, roots⟩ =>
      if c == '>' then
        match emitOpen nm as true stack roots with
        | (s2, r2) => ⟨Mode.mText [], s2, r2⟩
      else if isNameChar c then ⟨Mode.mAttrName nm as [c], stack, roots⟩
      else ⟨Mode.mAttrs nm as, stack, roots⟩

/-- End of input: flush pending text (a tag left open mid-token is dropped,
as html5ever drops a tag truncated by end of input) and close every open
element. -/
def finishParse : PState → List Node
  | ⟨Mode.mText acc, stack, roots⟩ =>
      match flushText acc stack roots with
      | (s2, r2) => closeAll s2 r2
  | ⟨Mode.mSeenLt acc, stack, roots⟩ =>
      match flushText ('<' :: acc) stack roots with
      | (s2, r2) => closeAll s2 r2
  | ⟨_, stack, roots⟩ => closeAll stack roots

def runParse : List Char → PState → PState :=
  List.rec (fun st => st) (fun c _ ih st => ih (pstep c st))

/-- Modelled from the spec: `Document::from` of the select crate is not part
of this repository; the spec says the input is parsed "into a structural
document tree tolerant of malformed markup (parsing never fails outright;
worst case yields an empty or degenerate tree)".  This streaming parser is
total by construction. -/
def parseHtml (page : String) : List Node :=
  finishParse (runParse page.toList ⟨Mode.mText [], [], []⟩)

/-- `extract_links` (bing.rs lines 64-79): parse the page, collect the
`href` of every selector match in document order, `None` when the list is
empty. -/
def extract_links (page : String) : Option (List String) :=
  extract_links_doc (parseHtml page)

/-- Modelled from the spec: the crate's error module is not under src/.
The spec collapses the taxonomy to two kinds: a "generic transport error,
not distinguished by kind", and a parse/extraction error carrying "a fixed
descriptive message" (`HorsError::from_parse`). -/
inductive HorsError where
  | network
  | parse (msg : String)
deriving DecidableEq

/-- Outcome of the network interaction inside `fetch` (bing.rs lines
45-51): building the client, sending the request and decoding the body can
each fail; otherwise the page text is obtained. -/
inductive FetchStep where
  | clientBuildErr
  | sendErr
  | textErr
  | success (page : String)

/-- The URL built by `fetch` (bing.rs lines 41-44): `format!` interpolates
the query into the fixed template. -/
def fetch_url (query : String) : String :=
  "https://www.bing.com/search?q=site:stackoverflow.com%20" ++ query

/-- `fetch` (bing.rs lines 40-53) over the network outcome.  Modelled from
the spec for the error conversion: each of the three `?` operators converts
a `reqwest` failure into the single generic transport error kind. -/
def fetch : FetchStep → Except HorsError String
  | .clientBuildErr => .error .network
  | .sendErr => .error .network
  | .textErr => .error .network
  | .success page => .ok page

/-- `search_links` (bing.rs lines 19-28): propagate the fetch error, feed
the page to `extract_links`, map `None` to the fixed parse error. -/
def search_links (s : FetchStep) : Except HorsError (List String) :=
  match fetch s with
  | .error e => .error e
  | .ok page =>
      match extract_links page with
      | some links => .ok links
      | none => .error (.parse "Can't find search result...")

/-- Percent-encoding of RFC 3986 non-unreserved characters, used only to
state what "URL-encoding during interpolation" would mean. -/
def isUrlUnreserved (c : Char) : Bool :=
  c.isAlphanum || c == '-' || c == '.' || c == '_' || c == '~'

def hexDigit (n : Nat) : Char :=
  if n < 10 then Char.ofNat (48 + n) else Char.ofNat (55 + n)

def percentEncodeChar (c : Char) : List Char :=
  if isUrlUnreserved c then [c]
  else '%' :: hexDigit (c.toNat / 16 % 16) :: [hexDigit (c.toNat % 16)]

def urlEncode (s : String) : String :=
  (s.toList.map percentEncodeChar).flatten.asString

/-- Following the claim's words, not the source: the query would be
URL-encoded while being interpolated into the fixed template. -/
def fetch_url_encoding (query : String) : String :=
  "https://www.bing.com/search?q=site:stackoverflow.com%20" ++ urlEncode query

/-- The page of the Rust unit test `test_extract_links` (bing.rs lines
87-99), verbatim. -/
def testPage : String :=
  "\n<html>\n    <body>\n        <li class=\"b_algo\">\n            <h2><a target=\"_blank\" href=\"https://test_link1\"></a></h2>\n        </li>\n        <li class=\"b_algo\">\n            <h2><a target=\"_blank\" href=\"https://test_link2\"></a></h2>\n        </li>\n    </body>\n</html>"

/-- A result card of the shape the spec describes: one `b_algo`-classed
element, a heading below it, one anchor carrying the link target. -/
def aNode (l : String) : Node := Node.element "a" [("href", l)] []

def resultCard (l : String) : Node :=
  Node.element "li" [("class", "b_algo")] [Node.element "h2" [] [aNode l]]

/-- A result card whose single anchor carries `href` only when the option
is `some`. -/
def optAnchor : Option String → Node
  | some l => Node.element "a" [("href", l)] []
  | none => Node.element "a" [("target", "_blank")] []

def optCard (o : Option String) : Node :=
  Node.element "li" [("class", "b_algo")] [Node.element "h2" [] [optAnchor o]]

/-- One result card holding several qualifying anchors under one heading. -/
def multiAnchorCard (ls : List String) : Node :=
  Node.element "li" [("class", "b_algo")] [Node.element "h2" [] (ls.map aNode)]

/-! Shared evaluation facts and structural lemmas. -/

set_option maxRecDepth 100000 in
set_option maxHeartbeats 1000000 in
lemma extract_links_testPage :
    extract_links testPage = some ["https://test_link1", "https://test_link2"] := by
  decide

set_option maxRecDepth 100000 in
lemma extract_links_emptyHtml : extract_links "<html></html>" = none := by decide

lemma findInForest_cons (anc : List Node) (n : Node) (ns : List Node) :
    findInForest anc (n :: ns) = findInNode anc n ++ findInForest anc ns := rfl

lemma findInNode_resultCard (anc : List Node) (l : String) :
    findInNode anc (resultCard l) = [aNode l] := rfl

lemma findInNode_optCard (anc : List Node) (o : Option String) :
    findInNode anc (optCard o) = [optAnchor o] := by
  cases o <;> rfl

lemma findInForest_resultCards (anc : List Node) (ls : List String) :
    findInForest anc (ls.map resultCard) = ls.map aNode := by
  induction ls with
  | nil => rfl
  | cons l rest ih => simp [findInForest_cons, findInNode_resultCard, ih]

lemma findInForest_optCards (anc : List Node) (os : List (Option String)) :
    findInForest anc (os.map optCard) = os.map optAnchor := by
  induction os with
  | nil => rfl
  | cons o rest ih => simp [findInForest_cons, findInNode_optCard, ih]

lemma filterMap_href_aNodes (ls : List String) :
    (ls.map aNode).filterMap (fun n => n.attr "href") = ls := by
  induction ls with
  | nil => rfl
  | cons l rest ih =>
      simp only [List.map_cons, List.filterMap_cons]
      rw [show (aNode l).attr "href" = some l from rfl, ih]

lemma filterMap_href_optAnchors (os : List (Option String)) :
    (os.map optAnchor).filterMap (fun n => n.attr "href") = os.filterMap id := by
  induction os with
  | nil => rfl
  | cons o rest ih =>
      cases o with
      | none =>
          simp only [List.map_cons, List.filterMap_cons]
          rw [show (optAnchor none).attr "href" = none from rfl, ih]
          rfl
      | some l =>
          simp only [List.map_cons, List.filterMap_cons]
          rw [show (optAnchor (some l)).attr "href" = some l from rfl, ih]
          rfl

lemma extract_links_doc_ne_some_nil (doc : List Node) :
    extract_links_doc doc ≠ some [] := by
  unfold extract_links_doc
  intro hcontra
  by_cases h : ((findInForest [] doc).filterMap (fun n => n.attr "href")).length = 0
  · rw [if_pos h] at hcontra
    exact Option.noConfusion hcontra
  · rw [if_neg h] at hcontra
    exact h (by rw [Option.some.inj hcontra]; rfl)

lemma extract_links_doc_isSome (doc : List Node) :
    (extract_links_doc doc).isSome = true ↔
      ∃ n ∈ findInForest [] doc, (n.attr "href").isSome = true := by
  unfold extract_links_doc
  by_cases h : ((findInForest [] doc).filterMap (fun n => n.attr "href")).length = 0
  · rw [if_pos h]
    constructor
    · intro hfalse
      exact Bool.noConfusion hfalse
    · rintro ⟨n, hmem, hsome⟩
      have hnil : (findInForest [] doc).filterMap (fun n => n.attr "href") = [] :=
        List.length_eq_zero.mp h
      rw [List.filterMap_eq_nil_iff] at hnil
      rw [hnil n hmem] at hsome
      exact Bool.noConfusion hsome
  · rw [if_neg h]
    constructor
    · intro _
      have hne : (findInForest [] doc).filterMap (fun n => n.attr "href") ≠ [] :=
        fun he => h (by rw [he]; rfl)
      rcases List.exists_mem_of_ne_nil _ hne with ⟨l, hl⟩
      rcases List.mem_filterMap.mp hl with ⟨n, hmem, hattr⟩
      exact ⟨n, hmem, by rw [hattr]; rfl⟩
    · intro _
      rfl

/-- C1: for every fetched page, `search_links` returns the extracted link
list when the extractor yields one, and the fixed "can't find search
result" parse error when the extractor yields `None`. -/
theorem search_links_success_follows_extractor (page : String) :
    (∀ links, extract_links page = some links →
        search_links (FetchStep.success page) = Except.ok links) ∧
      (extract_links page = none →
        search_links (FetchStep.success page) =
          Except.error (HorsError.parse "Can't find search result...")) := by
  constructor
  · intro links h
    simp [search_links, fetch, h]
  · intro h
    simp [search_links, fetch, h]

/-- Witness for C1 at the unit-test page of the source. -/
theorem search_links_success_follows_extractor_witness :
    search_links (FetchStep.success testPage) =
      Except.ok ["https://test_link1", "https://test_link2"] :=
  (search_links_success_follows_extractor testPage).1 _ extract_links_testPage

/-- C2: a document of N result cards, each with exactly one anchor nested
under a heading and carrying the link target, extracts to exactly those N
links, in document order, duplicates kept. -/
theorem extract_links_doc_result_cards (ls : List String) (h : ls ≠ []) :
    extract_links_doc (ls.map resultCard) = some ls := by
  unfold extract_links_doc
  rw [findInForest_resultCards, filterMap_href_aNodes]
  simp [List.length_eq_zero, h]

/-- Witness for C2 at a concrete three-card document with a duplicate. -/
theorem extract_links_doc_result_cards_witness :
    extract_links_doc
        (["https://dup", "https://dup", "https://other"].map resultCard) =
      some ["https://dup", "https://dup", "https://other"] :=
  extract_links_doc_result_cards _ (by decide)

/-- C3: the concrete two-block test page of the source yields exactly its
two links, in order. -/
theorem extract_links_two_block_page :
    extract_links testPage = some ["https://test_link1", "https://test_link2"] :=
  extract_links_testPage

/-- C4: extraction succeeds exactly when some selector-matched node carries
the link-target attribute, a returned list is never empty, and the empty
document yields `None`. -/
theorem extract_links_some_iff_href_match :
    (∀ page : String,
        ((extract_links page).isSome = true ↔
          ∃ n ∈ findInForest [] (parseHtml page), (n.attr "href").isSome = true) ∧
        extract_links page ≠ some []) ∧
      extract_links "<html></html>" = none := by
  refine ⟨fun page => ⟨?_, ?_⟩, extract_links_emptyHtml⟩
  · exact extract_links_doc_isSome (parseHtml page)
  · exact extract_links_doc_ne_some_nil (parseHtml page)

/-- Witness for C4 at the empty html document. -/
theorem extract_links_some_iff_href_match_witness :
    extract_links "<html></html>" ≠ some [] :=
  (extract_links_some_iff_href_match.1 "<html></html>").2

/-- C5: an anchor matching the structural selector but lacking `href` is
silently skipped: the extraction of a document with optional-href anchors
coincides with the extraction of the document keeping only the
href-carrying anchors. -/
theorem extract_links_doc_skips_hrefless_anchors (os : List (Option String)) :
    extract_links_doc (os.map optCard) =
      extract_links_doc ((os.filterMap id).map resultCard) := by
  unfold extract_links_doc
  rw [findInForest_optCards, filterMap_href_optAnchors,
    findInForest_resultCards, filterMap_href_aNodes]

/-- Following the claim's words, not the source: matching anchors under one
heading of one result card.  Used to show output length can exceed the
card count. -/
lemma findInNode_multiAnchorCard (anc : List Node) (ls : List String) :
    findInNode anc (multiAnchorCard ls) = ls.map aNode := by
  have hanc : ancHasH2UnderBAlgo
      (Node.element "h2" [] (ls.map aNode) :: multiAnchorCard ls :: anc) = true := rfl
  have hforest : ∀ (anc2 : List Node), ancHasH2UnderBAlgo anc2 = true →
      ∀ ms : List String, findInForest anc2 (ms.map aNode) = ms.map aNode := by
    intro anc2 h2 ms
    induction ms with
    | nil => rfl
    | cons m rest ih =>
        simp only [List.map_cons, findInForest_cons, ih]
        rw [show findInNode anc2 (aNode m) =
          (if selMatches anc2 (aNode m) = true then [aNode m] else []) ++
            findInForest (aNode m :: anc2) [] from rfl]
        simp [selMatches, isName, aNode, h2,
          show ∀ anc3 : List Node, findInForest anc3 [] = [] from fun _ => rfl]
  show (if selMatches anc (multiAnchorCard ls) = true then [multiAnchorCard ls] else []) ++
      findInForest (multiAnchorCard ls :: anc)
        [Node.element "h2" [] (ls.map aNode)] = ls.map aNode
  rw [show selMatches anc (multiAnchorCard ls) = false from rfl]
  simp only [Bool.false_eq_true, if_false, List.nil_append]
  rw [findInForest_cons]
  rw [show findInNode (multiAnchorCard ls :: anc) (Node.element "h2" [] (ls.map aNode)) =
    (if selMatches (multiAnchorCard ls :: anc) (Node.element "h2" [] (ls.map aNode)) = true
        then [Node.element "h2" [] (ls.map aNode)] else []) ++
      findInForest (Node.element "h2" [] (ls.map aNode) :: multiAnchorCard ls :: anc)
        (ls.map aNode) from rfl]
  rw [show selMatches (multiAnchorCard ls :: anc)
    (Node.element "h2" [] (ls.map aNode)) = false from rfl]
  simp only [Bool.false_eq_true, if_false, List.nil_append]
  rw [hforest _ hanc ls]
  simp [show ∀ anc3 : List Node, findInForest anc3 [] = [] from fun _ => rfl]

/-- C6 counterexample: `format!` interpolates the query verbatim, so a
query containing a space is NOT URL-encoded during interpolation: the
built URL differs from the one the claim describes. -/
theorem fetch_url_not_urlencoded : fetch_url "a b" ≠ fetch_url_encoding "a b" := by
  decide

/-- C6 amended: `fetch` builds the request URL by embedding the query
verbatim into the fixed bing template; no processing at all (neither
URL-encoding nor validation) is applied during the interpolation, the
query reappearing unchanged after the 55-character template prefix. -/
theorem fetch_url_verbatim_interpolation (query : String) :
    fetch_url query =
        "https://www.bing.com/search?q=site:stackoverflow.com%20" ++ query ∧
      (fetch_url query).data.drop 55 = query.data := by
  refine ⟨rfl, ?_⟩
  rw [show (fetch_url query).data =
    "https://www.bing.com/search?q=site:stackoverflow.com%20".data ++ query.data from
      String.data_append _ _]
  rw [show (55 : Nat) =
    "https://www.bing.com/search?q=site:stackoverflow.com%20".data.length from rfl]
  exact List.drop_left _ _

/-- C7: every failing network outcome inside `fetch` — client
construction, sending, body decoding — surfaces as the single generic
transport error, and `search_links` propagates any fetch error unchanged. -/
theorem fetch_failures_generic_network_error :
    (∀ (s : FetchStep) (e : HorsError), fetch s = Except.error e →
        search_links s = Except.error e) ∧
      fetch FetchStep.clientBuildErr = Except.error HorsError.network ∧
      fetch FetchStep.sendErr = Except.error HorsError.network ∧
      fetch FetchStep.textErr = Except.error HorsError.network := by
  refine ⟨?_, rfl, rfl, rfl⟩
  intro s e h
  cases s with
  | success page => exact Except.noConfusion h
  | clientBuildErr => rw [search_links, h]
  | sendErr => rw [search_links, h]
  | textErr => rw [search_links, h]

/-- Witness for C7 at the send failure. -/
theorem fetch_failures_generic_network_error_witness :
    search_links FetchStep.sendErr = Except.error HorsError.network :=
  fetch_failures_generic_network_error.1 FetchStep.sendErr HorsError.network rfl

/-- C8: `extract_links` is total and error-free on every input string,
malformed HTML included: its only outcomes are `none` or a non-empty
list. -/
theorem extract_links_total_none_or_nonempty (page : String) :
    extract_links page = none ∨
      ∃ l, extract_links page = some l ∧ l ≠ [] := by
  show extract_links_doc (parseHtml page) = none ∨
    ∃ l, extract_links_doc (parseHtml page) = some l ∧ l ≠ []
  unfold extract_links_doc
  by_cases h :
      ((findInForest [] (parseHtml page)).filterMap (fun n => n.attr "href")).length = 0
  · left
    rw [if_pos h]
  · right
    refine ⟨_, by rw [if_neg h], fun he => h ?_⟩
    rw [he]
    rfl

/-- Witness for C8 at a truncated, malformed input. -/
theorem extract_links_total_none_or_nonempty_witness :
    extract_links "<li class=\"b_algo\"><h2><a href=" = none ∨
      ∃ l, extract_links "<li class=\"b_algo\"><h2><a href=" = some l ∧ l ≠ [] :=
  extract_links_total_none_or_nonempty "<li class=\"b_algo\"><h2><a href="

/-- C9: extraction is a pure function of the input text: identical input
strings always produce identical results. -/
theorem extract_links_deterministic (p q : String) (h : p = q) :
    extract_links p = extract_links q := by
  rw [h]

/-- Witness for C9 at the empty html document. -/
theorem extract_links_deterministic_witness :
    extract_links "<html></html>" = extract_links "<html></html>" :=
  extract_links_deterministic "<html></html>" "<html></html>" rfl

/-- C10: extraction is per anchor, not per result card: a single result
card holding k qualifying anchors contributes k entries. -/
theorem extract_links_doc_multi_anchor_card (ls : List String) (h : ls ≠ []) :
    extract_links_doc [multiAnchorCard ls] = some ls := by
  unfold extract_links_doc
  rw [show findInForest [] [multiAnchorCard ls] =
    findInNode [] (multiAnchorCard ls) ++ findInForest [] [] from rfl]
  rw [findInNode_multiAnchorCard]
  rw [show findInForest ([] : List Node) [] = [] from rfl, List.append_nil]
  rw [filterMap_href_aNodes]
  simp [List.length_eq_zero, h]

/-- Witness for C10: one card, two anchors, two links. -/
theorem extract_links_doc_multi_anchor_card_witness :
    extract_links_doc [multiAnchorCard ["https://first", "https://second"]] =
      some ["https://first", "https://second"] :=
  extract_links_doc_multi_anchor_card _ (by decide)
